import Mathlib

/-!
Shallow embedding of the `proscript-enterpriz/lib` client library:
the `FetchClient` request pipeline (`src/services/http.ts`), the query
helpers (`src/utils.ts`) and the search query builder / `ESService`
registry (`src/services/es.ts`), together with theorems settling the
specification claims about them.

JavaScript runtime values are modelled by the inductive type `Val`;
plain objects are association lists of string keys, as produced by
`Object.entries`.  Machine floats are restricted to integers (`Int`) —
no claim depends on fractional or overflow behaviour — with `vNaN` kept
as a separate constructor because JS truthiness distinguishes it.
-/
set_option autoImplicit false

/-- A JavaScript runtime value: string, integer number, NaN, boolean,
null, undefined, array, or plain object (association list of entries in
`Object.entries` order).  `FormData` is modelled separately in the body
type because `isObject` singles it out. -/
inductive Val : Type where
  | vStr : String → Val
  | vNum : Int → Val
  | vNaN : Val
  | vBool : Bool → Val
  | vNull : Val
  | vUndef : Val
  | vArr : List Val → Val
  | vObj : List (String × Val) → Val

namespace Val

/-- JS truthiness: `false`, `0`, `""`, `null`, `undefined` and `NaN` are
falsy; every other value (arrays and objects included, even empty ones)
is truthy. -/
def truthy : Val → Bool
  | vStr s => !(s = "")
  | vNum n => !(n = 0)
  | vNaN => false
  | vBool b => b
  | vNull => false
  | vUndef => false
  | vArr _ => true
  | vObj _ => true

/-- Source `utils.ts` `isObject`: a plain object — not an array, not null (and
not `FormData`, which is a distinct constructor of the body type). -/
def isObject : Val → Bool
  | vObj _ => true
  | _ => false

/-- JS property access `v?.k`: the first entry with the key, else
`undefined`; accessing a property of a non-object yields `undefined`. -/
def getField (v : Val) (k : String) : Val :=
  match v with
  | vObj kvs =>
      match kvs.find? (fun kv => kv.1 = k) with
      | some kv => kv.2
      | none => vUndef
  | _ => vUndef

/-- JS `a || b`. -/
def jsOr (a b : Val) : Val := if a.truthy then a else b

/-- JS `a ?? b` (nullish coalescing). -/
def jsNullish (a b : Val) : Val :=
  match a with
  | vNull => b
  | vUndef => b
  | v => v

end Val

open Val

/-- Source `FetchClient.filterReturnColumns` (src/services/http.ts, lines
123–134): when `data` is a plain object (`isObject`) whose key set
(`Object.keys`) includes every requested column, rebuild it from the
entries whose key is a requested column; otherwise return `data`
unchanged. -/
def filterReturnColumns (data : Val) (returnColumns : List String) : Val :=
  match data with
  | vObj kvs =>
      let returnColExists := returnColumns.all (fun col => (kvs.map Prod.fst).contains col)
      if returnColExists then
        vObj (kvs.filter (fun kv => returnColumns.contains kv.1))
      else vObj kvs
  | v => v

/-! ### JS string conversion (platform `String(v)` / `toString()`) -/
mutual

/-- JS `String(v)` / `v.toString()`: numbers and booleans print their
literal form, arrays join their elements with commas (null/undefined
elements printing empty), objects print the generic object tag. -/
def valToString : Val → String
  | vStr s => s
  | vNum n => toString n
  | vNaN => "NaN"
  | vBool b => cond b "true" "false"
  | vNull => "null"
  | vUndef => "undefined"
  | vArr xs => String.intercalate "," (valToStringList xs)
  | vObj _ => "[object Object]"

/-- Elementwise conversion used by JS `Array.prototype.toString`
(`join(",")`): `null` and `undefined` elements print as empty. -/
def valToStringList : List Val → List String
  | [] => []
  | vNull :: vs => "" :: valToStringList vs
  | vUndef :: vs => "" :: valToStringList vs
  | v :: vs => valToString v :: valToStringList vs

end

/-! ### The `FetchClient.request` response pipeline
(src/services/http.ts, lines 61–134 and 181–218)

The model starts where `fetch` has resolved with a response.  The parts
of `request` before the transport call — header/auth resolution and
`prepareRequest` — are embedded separately below.  `parseResponse`
(JSON-parse when the content type is JSON, raw text otherwise) is
represented by its outcome: `Except.ok body` for a parsed body, or
`Except.error e` when parsing threw the platform error value `e`. -/
/-- A resolved transport response, as consumed by `request` after
`fetch`: the response type (the platform sets it to "opaqueredirect"
for an intercepted manual-mode redirect), status, `Location` header
(`none` when absent), resolved URL, and the outcome of
`parseResponse`. -/
structure ResponseM : Type where
  rtype : String
  status : Int
  location : Option String
  url : String
  parsed : Except Val Val

/-- Platform `Response.ok`: status in the inclusive range 200–299. -/
def responseOk (status : Int) : Bool := 200 ≤ status && status < 300

/-- src/services/http.ts line 85–86: `response.type === "opaqueredirect"
|| (response.status >= 300 && response.status < 400)` (the source uses
single quotes). -/
def isRedirect (r : ResponseM) : Bool :=
  (r.rtype = "opaqueredirect") || (300 ≤ r.status && r.status < 400)

/-- Line 89: `response.headers.get("location") || response.url || ""`. -/
def redirectLocation (r : ResponseM) : Val :=
  jsOr (jsOr (match r.location with | some l => vStr l | none => vNull) (vStr r.url)) (vStr "")

/-- Line 90: `response.status || 0`. -/
def redirectStatus (r : ResponseM) : Int :=
  if (vNum r.status).truthy then r.status else 0

/-- The redirect descriptor `\x7b url, status \x7d` of a `FetchResult`. -/
structure RedirectInfo : Type where
  url : Val
  status : Int

/-- The `FetchResult` envelope `\x7b body, error, redirect? \x7d`; the
`error` field is the JS value stored there (`null` on success). -/
structure FetchResultM : Type where
  body : Val
  error : Val
  redirect : Option RedirectInfo

/-- The payload of the rejected promise built by `handleError`
(lines 214–217): `\x7b body: null, error: errString \x7d`. -/
structure RejectionPayload : Type where
  body : Val
  error : Val

/-- The asynchronous outcome of `request`: a normally resolved
`FetchResult`, or a rejection carrying `handleError`'s payload. -/
inductive RequestOutcome : Type where
  | resolved : FetchResultM → RequestOutcome
  | rejected : RejectionPayload → RequestOutcome

/-- JS `new Error(arg)`: an object whose `message` is `""` when `arg`
is `undefined` and `String(arg)` otherwise (and with no `error` own
property). -/
def jsNewError (arg : Val) : Val :=
  vObj [("message", vStr (match arg with | vUndef => "" | v => valToString v))]

/-- Source `FetchClient.createError` (lines 195–197):
`new Error(body?.error || body?.message)`. -/
def createError (body : Val) : Val :=
  jsNewError (jsOr (body.getField "error") (body.getField "message"))

/-- The message extraction of `handleError` (line 212):
`error?.error ?? error?.message ?? String(error)`. -/
def handleErrorMessage (error : Val) : Val :=
  jsNullish (error.getField "error")
    (jsNullish (error.getField "message") (vStr (valToString error)))

/-- Source `FetchClient.handleError` (lines 206–218): the rejected payload
`\x7b body: null, error: errString \x7d` (the log call has no effect on
the result). -/
def handleError (error : Val) : RejectionPayload :=
  ⟨vNull, handleErrorMessage error⟩

/-- Line 95: the application-level error marker
`(body as any)?.status === "error"`. -/
def isErrorStatusField (v : Val) : Bool :=
  match v with
  | vStr s => s = "error"
  | _ => false

/-- Lines 100–106: the transformation applied to each top-level value of
a plain-object body when return columns were requested: array values are
filtered elementwise, any other value is filtered as one object. -/
def filterBodyEntryValue (returnColumns : List String) (value : Val) : Val :=
  match value with
  | vArr cs => vArr (cs.map (fun c => filterReturnColumns c returnColumns))
  | v => filterReturnColumns v returnColumns

/-- Lines 97–117: the body returned on the success path.  When the
caller supplied a non-empty `return_columns` list (`!!returnColumns?.length`):
a plain-object body has `filterBodyEntryValue` applied to each of its
top-level values, an array body has `filterReturnColumns` applied to
each element; any other body — and any body when no columns were
requested — is returned unchanged.  Every success return in the source
is `\x7b body, error: null \x7d`. -/
def successBody (body : Val) (returnColumns : Option (List String)) : Val :=
  match returnColumns with
  | some cols =>
    if cols.length ≠ 0 then
      match body with
      | vObj kvs => vObj (kvs.map (fun kv => (kv.1, filterBodyEntryValue cols kv.2)))
      | vArr items => vArr (items.map (fun item => filterReturnColumns item cols))
      | v => v
    else body
  | none => body

/-- Source `FetchClient.request` from the point where `fetch` resolved
(src/services/http.ts lines 82–120): redirect interception, body
parsing, error detection (`throw createError` caught by the enclosing
`catch`, which returns `handleError`'s rejection), and the
`return_columns` filtering of the success body.  `returnColumns` models
the local `opts.searchParams?.return_columns` (typed
`string[] | undefined` in the source). -/
def requestModel (r : ResponseM) (returnColumns : Option (List String)) : RequestOutcome :=
  if isRedirect r then
    .resolved ⟨vObj [], vNull, some ⟨redirectLocation r, redirectStatus r⟩⟩
  else
    match r.parsed with
    | .error e => .rejected (handleError e)
    | .ok body =>
      if !(responseOk r.status) || isErrorStatusField (body.getField "status") then
        .rejected (handleError (createError body))
      else
        .resolved ⟨successBody body returnColumns, vNull, none⟩

/-! ### Query-string helpers (src/utils.ts: `clearObj`, `objToQs`) and
`FetchClient.prepareRequest` (src/services/http.ts, lines 143–173) -/
/-- JS `value === null || value === undefined` (the element skip test in
`objToQs`). -/
def Val.isNullish : Val → Bool
  | vNull => true
  | vUndef => true
  | _ => false

/-- Source `utils.ts` `clearObj` (lines 331–337): keep exactly the entries
whose value is truthy (falsy: `false`, `0`, `""`, `null`, `undefined`,
`NaN`), in insertion order. -/
def clearObj (obj : List (String × Val)) : List (String × Val) :=
  obj.filter (fun kv => kv.2.truthy)

/-- The key/value pairs appended to the `URLSearchParams` by `objToQs`
(lines 134–144), in order: an array value appends one pair per
non-null, non-undefined element (`item.toString()`); a non-array,
non-nullish value appends one pair (`value.toString()`). -/
def qsPairs : List (String × Val) → List (String × String)
  | [] => []
  | (k, vArr items) :: rest =>
      (items.filterMap (fun item =>
        if item.isNullish then none else some (k, valToString item)))
        ++ qsPairs rest
  | (k, v) :: rest =>
      (if v.isNullish then [] else [(k, valToString v)]) ++ qsPairs rest

/-- Hex digit (uppercase) for percent-encoding. -/
def hexDigit (n : Nat) : Char :=
  if n < 10 then Char.ofNat (48 + n) else Char.ofNat (65 + (n - 10))

/-- UTF-8 bytes of a character (platform encoder used by
`URLSearchParams`). -/
def utf8Bytes (c : Char) : List Nat :=
  let n := c.toNat
  if n < 128 then [n]
  else if n < 2048 then [192 + n / 64, 128 + n % 64]
  else if n < 65536 then [224 + n / 4096, 128 + (n / 64) % 64, 128 + n % 64]
  else [240 + n / 262144, 128 + (n / 4096) % 64, 128 + (n / 64) % 64, 128 + n % 64]

/-- The characters `application/x-www-form-urlencoded` leaves
unescaped: ASCII alphanumerics and `*`, `-`, `.`, `_`. -/
def isUrlencodedSafe (c : Char) : Bool :=
  (65 ≤ c.toNat && c.toNat ≤ 90) || (97 ≤ c.toNat && c.toNat ≤ 122)
    || (48 ≤ c.toNat && c.toNat ≤ 57)
    || c = '*' || c = '-' || c = '.' || c = '_'

/-- Form-urlencoded escaping of one character:
safe characters kept, space becomes `+`, anything else percent-encoded
bytewise. -/
def urlencodeChar (c : Char) : String :=
  if isUrlencodedSafe c then String.singleton c
  else if c = ' ' then "+"
  else String.join ((utf8Bytes c).map (fun b =>
    "%" ++ String.singleton (hexDigit (b / 16)) ++ String.singleton (hexDigit (b % 16))))

/-- Form-urlencoded escaping of a string (the
serialization `URLSearchParams.toString` applies to keys and values). -/
def urlencode (s : String) : String :=
  String.join (s.toList.map urlencodeChar)

/-- Source `utils.ts` `objToQs` (lines 131–147): append the pairs of `qsPairs`
to a `URLSearchParams` and serialize it — `key=value` with both sides
form-urlencoded, joined by `&`. -/
def objToQs (params : List (String × Val)) : String :=
  String.intercalate "&" ((qsPairs params).map (fun kv => urlencode kv.1 ++ "=" ++ urlencode kv.2))

/-- Header list as managed by the platform `Headers` class: names are
normalized to lowercase; `set` replaces in place or appends, `delete`
removes all entries with the name. -/
abbrev HeadersM : Type := List (String × String)

/-- Platform `Headers.has`. -/
def hhas (h : HeadersM) (k : String) : Bool :=
  h.any (fun kv => kv.1 = k.toLower)

/-- Platform `Headers.set`. -/
def hset (h : HeadersM) (k v : String) : HeadersM :=
  if hhas h k then h.map (fun kv => if kv.1 = k.toLower then (kv.1, v) else kv)
  else h ++ [(k.toLower, v)]

/-- Platform `Headers.delete`. -/
def hdelete (h : HeadersM) (k : String) : HeadersM :=
  h.filter (fun kv => !(kv.1 = k.toLower))

/-- The `body` field of `FetchOptions`: absent, a plain structured
record, or a binary `FormData` payload. -/
inductive FetchBody : Type where
  | bNone : FetchBody
  | bObj : List (String × Val) → FetchBody
  | bForm : FetchBody

/-- JSON string escaping (quote and backslash; the control-character
escapes of the platform encoder are not reached by any claim). -/
def jsonEscape (s : String) : String :=
  String.join (s.toList.map (fun c =>
    if c = '\\' then "\\\\" else if c = '"' then "\\\"" else String.singleton c))

mutual

/-- Platform `JSON.stringify` on a JS value (`undefined` appears only
below the top level: as `null` inside arrays, omitted inside objects). -/
def jsonStringify : Val → String
  | vStr s => "\"" ++ jsonEscape s ++ "\""
  | vNum n => toString n
  | vNaN => "null"
  | vBool b => cond b "true" "false"
  | vNull => "null"
  | vUndef => "null"
  | vArr xs => "[" ++ String.intercalate "," (jsonStringifyList xs) ++ "]"
  | vObj kvs => "\x7b" ++ String.intercalate "," (jsonStringifyEntries kvs) ++ "\x7d"

/-- Array elements, in order. -/
def jsonStringifyList : List Val → List String
  | [] => []
  | v :: vs => jsonStringify v :: jsonStringifyList vs

/-- Object entries, in order; `undefined`-valued entries are omitted. -/
def jsonStringifyEntries : List (String × Val) → List String
  | [] => []
  | (_, vUndef) :: kvs => jsonStringifyEntries kvs
  | (k, v) :: kvs =>
      ("\"" ++ jsonEscape k ++ "\":" ++ jsonStringify v) :: jsonStringifyEntries kvs

end

/-- The `body` passed to the transport: absent, a serialized string, or
the `FormData` payload forwarded as-is. -/
inductive SentBody : Type where
  | sNone : SentBody
  | sStr : String → SentBody
  | sForm : SentBody

/-- The caller-facing options consumed by `prepareRequest`: body, query
parameters (`none` models an absent `searchParams`), and redirect
mode. -/
structure FetchOptionsM : Type where
  body : FetchBody
  searchParams : Option (List (String × Val))
  redirect : Option String

/-- The `\x7b url, fetchOptions \x7d` value built by `prepareRequest`. -/
structure PreparedRequest : Type where
  url : String
  headers : HeadersM
  credentials : String
  mode : String
  redirect : String
  referrerPolicy : String
  body : SentBody

/-- Source `FetchClient.prepareRequest` (src/services/http.ts, lines 143–173):
endpoint normalized to exactly one leading slash after `baseUrl`; when
the body is not a plain object (`FormData` or absent) the
`Content-Type` header is deleted, when it is a plain object and no
`Content-Type` is present it is set to `application/json`; fixed
transport parameters; plain-object bodies serialized with
`JSON.stringify`; a supplied `searchParams` record appended as
`?` + `objToQs(clearObj(searchParams))`. -/
def prepareRequest (baseUrl endpoint : String) (options : FetchOptionsM)
    (headers : HeadersM) : PreparedRequest :=
  let url := baseUrl ++ (if endpoint.startsWith "/" then endpoint else "/" ++ endpoint)
  let isBodyObject := match options.body with
    | .bObj _ => true
    | _ => false
  let headers1 :=
    if !isBodyObject then hdelete headers "Content-Type"
    else if !(hhas headers "Content-Type") then hset headers "Content-Type" "application/json"
    else headers
  let url1 := match options.searchParams with
    | some sp => url ++ "?" ++ objToQs (clearObj sp)
    | none => url
  { url := url1
    headers := headers1
    credentials := "include"
    mode := "cors"
    redirect := match options.redirect with
      | some m => m
      | none => "follow"
    referrerPolicy := "no-referrer"
    body := match options.body with
      | .bObj kvs => .sStr (jsonStringify (vObj kvs))
      | .bForm => .sForm
      | .bNone => .sNone }

/-! ### Search query builder and `ESService` (src/services/es.ts) -/
/-- The built-in default source field list (src/services/es.ts,
lines 3–12). -/
def source : List String :=
  ["title", "images", "sku", "slug", "price", "name", "updated_at", "created_at"]

/-- The built-in named sort table (lines 14–23), keys in insertion
order. -/
def sortNames : List (String × Val) :=
  [("random", vObj [("_script", vObj [("script", vStr "Math.random()"),
      ("type", vStr "number"), ("order", vStr "asc")])]),
   ("date_desc", vArr [vObj [("created_at", vStr "desc")]]),
   ("date_asc", vArr [vObj [("created_at", vStr "asc")]]),
   ("price_asc", vArr [vObj [("selling_price", vStr "asc")]]),
   ("price_desc", vArr [vObj [("selling_price", vStr "desc")]]),
   ("sale_desc", vArr [vObj [("sale_percent", vStr "desc")]])]

/-- The default relevance-descending sort, the source literal
`[\x7b _score: "desc" \x7d]` (lines 79–80). -/
def defaultSort : Val := vArr [vObj [("_score", vStr "desc")]]

/-- Source `ESconfigType`: optional sort-name overrides and optional source
field overrides. -/
structure ESconfigType : Type where
  sortNames : Option (List (String × Val))
  source : Option (List String)

/-- The `must` field of `QueryOptions`: absent, a single clause, or a
list of clauses. -/
inductive MustOpt : Type where
  | mNone : MustOpt
  | mSingle : Val → MustOpt
  | mList : List Val → MustOpt

/-- Source `QueryOptions` (lines 38–45); `from_` models the reserved word
`from`. -/
structure QueryOptions : Type where
  size : Option Int
  from_ : Option Int
  sort : Option String
  must : MustOpt
  ids : Option (List String)
  additionalSources : Option (List String)

/-- The query document built by `productQueryBuilder` (lines 82–88);
`source_` models `_source` (which can be `undefined` when the config has
no field list and no additional sources were supplied). -/
structure BuiltQuery : Type where
  query : Val
  size : Int
  source_ : Option (List String)
  sort : Val
  from_ : Option Int

/-- Source `productQueryBuilder` (lines 60–89).  The `must` list starts from
the caller's base filters, appends a `terms`-on-`id` clause when `ids`
is present (JS: any supplied array is truthy, even empty), then the
extra clause(s).  `_source` is the config list plus the additional
fields when `additionalSources` is present, else the config list
(possibly absent).  `sort` looks the requested name up in
`config.sortNames || \x7b\x7d` and falls back to the relevance-descending
literal when the name is absent or its entry is falsy, or when no
(non-empty) sort key was given; a present `ids` forces `sort` to the
empty object.  `size` is `options.size || 12`. -/
def productQueryBuilder (baseMust : List Val) (options : QueryOptions)
    (config : ESconfigType) : BuiltQuery :=
  let must := baseMust
    ++ (match options.ids with
        | some ids => [vObj [("terms", vObj [("id", vArr (ids.map vStr))])]]
        | none => [])
    ++ (match options.must with
        | .mNone => []
        | .mSingle c => [c]
        | .mList cs => cs)
  let source_ := match options.additionalSources with
    | some adds => some (config.source.getD [] ++ adds)
    | none => config.source
  let sort := match options.sort with
    | some s =>
        if !(s = "") then
          jsOr (getField (vObj (config.sortNames.getD [])) s) defaultSort
        else defaultSort
    | none => defaultSort
  { query := vObj [("bool", vObj [("must", vArr must)])]
    size := match options.size with
      | some n => if !(n = 0) then n else 12
      | none => 12
    source_ := source_
    sort := match options.ids with
      | some _ => vObj []
      | none => sort
    from_ := options.from_ }

/-- JS object spread `\x7b ...defaults, ...overrides \x7d`: the keys of
`defaults` in their order with `overrides` values winning, followed by
the keys only `overrides` has, in their order. -/
def jsSpread (defaults overrides : List (String × Val)) : List (String × Val) :=
  defaults.map (fun kv =>
    (kv.1, match overrides.find? (fun e => e.1 = kv.1) with
      | some e => e.2
      | none => kv.2))
  ++ overrides.filter (fun e => !((defaults.map Prod.fst).contains e.1))

/-- The config merge of the `ESService` constructor (lines 152–155):
`sortNames: \x7b ...sortNames, ...(config?.sortNames || \x7b\x7d) \x7d` and
`source: [...source, ...(config?.source || [])]`. -/
def mergedConfig : Option ESconfigType → ESconfigType
  | some c =>
    { sortNames := some (jsSpread sortNames (c.sortNames.getD []))
      source := some (source ++ c.source.getD []) }
  | none =>
    { sortNames := some (jsSpread sortNames [])
      source := some (source ++ []) }

/-- The process-wide instance registry (`ESService.instances`), as a
list of `(index name, instance)` entries in insertion order; instances
are identified by a number. -/
abbrev Registry : Type := List (String × Nat)

/-- The registry update performed at the end of the `ESService`
constructor (line 157): `if (!instances.has(index)) instances.set(index,
this)`. -/
def registryConstruct (reg : Registry) (index : String) (inst : Nat) : Registry :=
  if (reg.find? (fun e => e.1 = index)).isSome then reg else reg ++ [(index, inst)]

/-- Source `ESService.getInstance` (lines 160–163): the registered instance, or
a thrown error when the index was never constructed. -/
def getInstance (reg : Registry) (index : String) : Except String Nat :=
  match reg.find? (fun e => e.1 = index) with
  | some e => Except.ok e.2
  | none => Except.error ("ES instance for index \"" ++ index ++ "\" not initialized")

/-- A sequence of `ESService` constructions applied to a registry in
order. -/
def runConstructions : Registry → List (String × Nat) → Registry
  | reg, [] => reg
  | reg, c :: cs => runConstructions (registryConstruct reg c.1 c.2) cs

/-! ## Theorems settling the claims (with their unfolding
lemmas, sanity checks and witnesses) -/

/- Sanity checks on concrete inputs. -/
example :
    filterReturnColumns (vObj [("a", vNum 1), ("b", vNum 2)]) ["a"]
      = vObj [("a", vNum 1)] := rfl

example :
    filterReturnColumns (vObj [("a", vNum 1)]) ["a", "b"]
      = vObj [("a", vNum 1)] := rfl

example : filterReturnColumns (vArr [vNum 1]) ["a"] = vArr [vNum 1] := rfl

/-- Unfolding lemma: `filterReturnColumns` on a plain object. -/
theorem filterReturnColumns_obj (kvs : List (String × Val)) (cols : List String) :
    filterReturnColumns (vObj kvs) cols =
      if cols.all (fun col => (kvs.map Prod.fst).contains col)
      then vObj (kvs.filter (fun kv => cols.contains kv.1))
      else vObj kvs := rfl

/-- C9 — For every plain object that contains all requested columns and
every non-empty column list, `filterReturnColumns` is idempotent:
filtering twice gives the same result as filtering once. -/
theorem filterReturnColumns_idempotent
    (kvs : List (String × Val)) (cols : List String)
    (hcols : cols ≠ [])
    (hall : ∀ c ∈ cols, c ∈ kvs.map Prod.fst) :
    filterReturnColumns (filterReturnColumns (vObj kvs) cols) cols
      = filterReturnColumns (vObj kvs) cols := by
  have hck : (cols.all (fun col => (kvs.map Prod.fst).contains col)) = true := by
    simp only [List.all_eq_true, List.contains, List.elem_iff]
    exact hall
  have h1 : filterReturnColumns (vObj kvs) cols
      = vObj (kvs.filter (fun kv => cols.contains kv.1)) := by
    rw [filterReturnColumns_obj, hck]
    simp
  rw [h1]
  have hck2 : (cols.all
      (fun col =>
        ((kvs.filter (fun kv => cols.contains kv.1)).map Prod.fst).contains col))
      = true := by
    simp only [List.all_eq_true, List.contains, List.elem_iff]
    intro c hc
    rcases List.mem_map.mp (hall c hc) with ⟨kv, hkv, hfst⟩
    refine List.mem_map.mpr ⟨kv, List.mem_filter.mpr ⟨hkv, ?_⟩, hfst⟩
    simp [List.contains, List.elem_iff, hfst, hc]
  rw [filterReturnColumns_obj, hck2]
  simp only [if_true]
  rw [List.filter_filter]
  simp

/-- C9 witness: a concrete object containing both requested columns. -/
theorem filterReturnColumns_idempotent_witness :
    filterReturnColumns
        (filterReturnColumns (vObj [("a", vNum 1), ("b", vNum 2), ("c", vNum 3)]) ["a", "b"])
        ["a", "b"]
      = filterReturnColumns (vObj [("a", vNum 1), ("b", vNum 2), ("c", vNum 3)]) ["a", "b"] :=
  filterReturnColumns_idempotent
    [("a", vNum 1), ("b", vNum 2), ("c", vNum 3)] ["a", "b"]
    (by decide) (by intro c hc; fin_cases hc <;> simp)

/-- Unfolding lemma: the redirect-interception branch of `request`. -/
theorem requestModel_redirect (r : ResponseM) (rc : Option (List String))
    (h : isRedirect r = true) :
    requestModel r rc
      = .resolved ⟨vObj [], vNull, some ⟨redirectLocation r, redirectStatus r⟩⟩ := by
  unfold requestModel
  rw [h]
  simp

/-- Unfolding lemma: the non-redirect branches of `request`. -/
theorem requestModel_not_redirect (r : ResponseM) (rc : Option (List String))
    (h : isRedirect r = false) :
    requestModel r rc
      = match r.parsed with
        | .error e => .rejected (handleError e)
        | .ok body =>
          if !(responseOk r.status) || isErrorStatusField (body.getField "status") then
            .rejected (handleError (createError body))
          else
            .resolved ⟨successBody body rc, vNull, none⟩ := by
  unfold requestModel
  rw [h]
  simp

/-- Unfolding lemma: a failed parse on a non-redirect response. -/
theorem requestModel_parse_error (r : ResponseM) (rc : Option (List String)) (e : Val)
    (hnr : isRedirect r = false) (hp : r.parsed = .error e) :
    requestModel r rc = .rejected (handleError e) := by
  rw [requestModel_not_redirect r rc hnr, hp]

/-- Unfolding lemma: a successfully parsed body on a non-redirect
response. -/
theorem requestModel_parsed_ok (r : ResponseM) (rc : Option (List String)) (body : Val)
    (hnr : isRedirect r = false) (hp : r.parsed = .ok body) :
    requestModel r rc
      = if !(responseOk r.status) || isErrorStatusField (body.getField "status") then
          .rejected (handleError (createError body))
        else .resolved ⟨successBody body rc, vNull, none⟩ := by
  rw [requestModel_not_redirect r rc hnr, hp]

/- Sanity checks of the pipeline on concrete inputs. -/
example :
    requestModel ⟨"basic", 200, none, "u", Except.ok (vObj [("x", vNum 1)])⟩ none
      = .resolved ⟨vObj [("x", vNum 1)], vNull, none⟩ := rfl

example :
    requestModel ⟨"basic", 500, none, "u", Except.ok (vObj [("error", vStr "boom")])⟩ none
      = .rejected ⟨vNull, vStr "boom"⟩ := rfl

example :
    requestModel ⟨"basic", 200, none, "u", Except.ok (vObj [("status", vStr "error")])⟩ none
      = .rejected ⟨vNull, vStr ""⟩ := rfl

/-- C5 — If the response is an opaque redirect or carries a 3xx status
(and the caller used a non-follow redirect mode), `request` resolves
immediately with an empty body, a null error, and a redirect descriptor
whose location is the `Location` header when that is present and
non-empty, else the response's resolved URL, and whose status is the
response status; the outcome is independent of the parse result, so no
body parsing is attempted on this path. -/
theorem request_redirect_interception
    (r : ResponseM) (redirectMode : String) (rc : Option (List String))
    (hmode : redirectMode ≠ "follow")
    (hred : isRedirect r = true) :
    requestModel r rc
        = .resolved ⟨vObj [], vNull, some ⟨redirectLocation r, redirectStatus r⟩⟩
      ∧ (∀ l, r.location = some l → l ≠ "" → redirectLocation r = vStr l)
      ∧ ((r.location = none ∨ r.location = some "") → redirectLocation r = vStr r.url)
      ∧ redirectStatus r = r.status
      ∧ (∀ p, requestModel { r with parsed := p } rc = requestModel r rc) := by
  refine ⟨requestModel_redirect r rc hred, ?_, ?_, ?_, ?_⟩
  · intro l hl hne
    simp [redirectLocation, hl, jsOr, truthy, hne]
  · rintro (hl | hl) <;>
      · simp only [redirectLocation, hl, jsOr, truthy]
        by_cases hu : r.url = "" <;> simp [hu]
  · by_cases hs : r.status = 0 <;> simp [redirectStatus, truthy, hs]
  · intro p
    have h1 : isRedirect { r with parsed := p } = true := hred
    rw [requestModel_redirect _ rc h1, requestModel_redirect _ rc hred]
    rfl

/-- C5 witness: an opaque redirect with a `Location` header, under
manual redirect mode. -/
theorem request_redirect_interception_witness :
    requestModel ⟨"opaqueredirect", 0, some "https://next", "https://orig", Except.ok vNull⟩ none
      = .resolved ⟨vObj [], vNull, some ⟨vStr "https://next", 0⟩⟩ := by
  have h := request_redirect_interception
    ⟨"opaqueredirect", 0, some "https://next", "https://orig", Except.ok vNull⟩
    "manual" none (by decide) rfl
  exact h.1.trans (by rfl)

/-- C2 counterexample — a 301 response: the transport reports a
non-success status (`responseOk 301 = false`), yet `request` resolves
normally with a redirect descriptor instead of rejecting, so "failure
exactly when the transport reports a non-success status …" fails as
stated. -/
theorem request_failure_counterexample :
    responseOk 301 = false
    ∧ requestModel ⟨"basic", 301, some "https://x/next", "https://x", Except.ok (vObj [])⟩ none
        = .resolved ⟨vObj [], vNull, some ⟨vStr "https://x/next", 301⟩⟩ :=
  ⟨by decide, rfl⟩

/-- C2 (amended) — For every response NOT taken by the
redirect-interception path: the outcome is a rejection exactly when the
transport status is non-success, body parsing threw, or the parsed body
carries `status: "error"`; and every rejection carries
`\x7b body: null, error: m \x7d` where `m` is `handleErrorMessage`
(embedded `error` field `??` `message` field `??` stringification)
of the thrown error — the parse exception, or `createError` of the
parsed body. -/
theorem request_failure_characterization
    (r : ResponseM) (rc : Option (List String))
    (hnr : isRedirect r = false) :
    ((∃ p, requestModel r rc = .rejected p) ↔
      (responseOk r.status = false
        ∨ (∃ e, r.parsed = .error e)
        ∨ (∃ body, r.parsed = .ok body ∧ isErrorStatusField (body.getField "status") = true)))
    ∧ (∀ p, requestModel r rc = .rejected p →
        p.body = vNull
        ∧ ((∃ e, r.parsed = .error e ∧ p.error = handleErrorMessage e)
          ∨ (∃ body, r.parsed = .ok body ∧ p.error = handleErrorMessage (createError body)))) := by
  cases hp : r.parsed with
  | error e =>
    rw [requestModel_parse_error r rc e hnr hp]
    constructor
    · constructor
      · intro _; exact Or.inr (Or.inl ⟨e, rfl⟩)
      · intro _; exact ⟨handleError e, rfl⟩
    · intro p hrej
      cases hrej
      exact ⟨rfl, Or.inl ⟨e, rfl, rfl⟩⟩
  | ok body =>
    rw [requestModel_parsed_ok r rc body hnr hp]
    by_cases hok : responseOk r.status = true
    · by_cases hmark : isErrorStatusField (body.getField "status") = true
      · have hc : (!(responseOk r.status) || isErrorStatusField (body.getField "status")) = true := by
          simp [hmark]
        rw [if_pos hc]
        constructor
        · constructor
          · intro _; exact Or.inr (Or.inr ⟨body, rfl, hmark⟩)
          · intro _; exact ⟨handleError (createError body), rfl⟩
        · intro p hrej
          cases hrej
          exact ⟨rfl, Or.inr ⟨body, rfl, rfl⟩⟩
      · have hc : ¬((!(responseOk r.status) || isErrorStatusField (body.getField "status")) = true) := by
          simp [hok, hmark]
        rw [if_neg hc]
        constructor
        · constructor
          · intro ⟨p, hrej⟩
            cases hrej
          · rintro (h | ⟨e, he⟩ | ⟨b, hb, hm⟩)
            · rw [hok] at h; cases h
            · cases he
            · cases hb
              exact absurd hm hmark
        · intro p hrej
          cases hrej
    · have hc : (!(responseOk r.status) || isErrorStatusField (body.getField "status")) = true := by
        simp [Bool.not_eq_true] at hok
        simp [hok]
      rw [if_pos hc]
      constructor
      · constructor
        · intro _
          exact Or.inl (by simpa [Bool.not_eq_true] using hok)
        · intro _; exact ⟨handleError (createError body), rfl⟩
      · intro p hrej
        cases hrej
        exact ⟨rfl, Or.inr ⟨body, rfl, rfl⟩⟩

/-- C2 witness: a 404 response with a parsed body carrying a `message`
field rejects. -/
theorem request_failure_characterization_witness :
    ∃ p, requestModel ⟨"basic", 404, none, "u", Except.ok (vObj [("message", vStr "nope")])⟩ none
      = RequestOutcome.rejected p :=
  ((request_failure_characterization
      ⟨"basic", 404, none, "u", Except.ok (vObj [("message", vStr "nope")])⟩
      none (by decide)).1).mpr (Or.inl (by decide))

/-- Unfolding lemma: `successBody` under a supplied column list. -/
theorem successBody_some (body : Val) (cols : List String) :
    successBody body (some cols) =
      if cols.length ≠ 0 then
        match body with
        | vObj kvs => vObj (kvs.map (fun kv => (kv.1, filterBodyEntryValue cols kv.2)))
        | vArr items => vArr (items.map (fun item => filterReturnColumns item cols))
        | v => v
      else body := rfl

/-- C1 counterexample — a plain-object success body `\x7b a: 1, b: 2 \x7d`
with requested columns `["a"]`: the body contains every requested key,
so the claim says it is reduced to `\x7b a: 1 \x7d`; the code instead
filters the body's values (not the body itself) and returns it with both
keys intact. -/
theorem request_return_columns_counterexample :
    requestModel ⟨"basic", 200, none, "u", Except.ok (vObj [("a", vNum 1), ("b", vNum 2)])⟩
        (some ["a"])
      = RequestOutcome.resolved ⟨vObj [("a", vNum 1), ("b", vNum 2)], vNull, none⟩
    ∧ vObj [("a", vNum 1), ("b", vNum 2)] ≠ vObj [("a", vNum 1)] := by
  constructor
  · rfl
  · intro h
    simp at h

/-- C1 (amended) — On the success path with a non-empty requested column
list: a plain-object body keeps its own key set unchanged, and instead
each of its top-level values is filtered (`filterBodyEntryValue`: array
values elementwise, other values as single objects); an array body has
each element reduced by `filterReturnColumns` (to only the requested
keys when the element contains all of them, else passed through); any
other body is returned unchanged.  Filtering is per-object and applies
only to the success body. -/
theorem request_return_columns_filtering
    (r : ResponseM) (cols : List String) (body : Val)
    (hnr : isRedirect r = false)
    (hok : responseOk r.status = true)
    (hp : r.parsed = Except.ok body)
    (hmark : isErrorStatusField (body.getField "status") = false)
    (hcols : cols ≠ []) :
    (∀ kvs, body = vObj kvs →
        requestModel r (some cols)
          = .resolved ⟨vObj (kvs.map (fun kv => (kv.1, filterBodyEntryValue cols kv.2))),
              vNull, none⟩
          ∧ (kvs.map (fun kv => (kv.1, filterBodyEntryValue cols kv.2))).map Prod.fst
              = kvs.map Prod.fst)
    ∧ (∀ items, body = vArr items →
        requestModel r (some cols)
          = .resolved ⟨vArr (items.map (fun item => filterReturnColumns item cols)),
              vNull, none⟩)
    ∧ (body.isObject = false → (∀ items, body ≠ vArr items) →
        requestModel r (some cols) = .resolved ⟨body, vNull, none⟩) := by
  have hcnd : ¬((!(responseOk r.status) || isErrorStatusField (body.getField "status")) = true) := by
    simp [hok, hmark]
  have hbase : requestModel r (some cols)
      = .resolved ⟨successBody body (some cols), vNull, none⟩ := by
    rw [requestModel_parsed_ok r (some cols) body hnr hp, if_neg hcnd]
  have hlen : cols.length ≠ 0 := by
    cases cols with
    | nil => exact absurd rfl hcols
    | cons a l => simp
  refine ⟨?_, ?_, ?_⟩
  · intro kvs hb
    subst hb
    refine ⟨?_, ?_⟩
    · rw [hbase, successBody_some, if_pos hlen]
    · simp
  · intro items hb
    subst hb
    rw [hbase, successBody_some, if_pos hlen]
  · intro hobj harr
    rw [hbase]
    have hsb : successBody body (some cols) = body := by
      rw [successBody_some, if_pos hlen]
      cases body with
      | vObj kvs => simp [isObject] at hobj
      | vArr items => exact absurd rfl (harr items)
      | vStr s => rfl
      | vNum n => rfl
      | vNaN => rfl
      | vBool b => rfl
      | vNull => rfl
      | vUndef => rfl
    rw [hsb]

/-- C1 witness: a success body whose `items` value is an array of
objects; the nested objects are filtered, the body's own keys are
kept. -/
theorem request_return_columns_filtering_witness :
    requestModel ⟨"basic", 200, none, "u",
        Except.ok (vObj [("items", vArr [vObj [("a", vNum 1), ("b", vNum 2)]]), ("total", vNum 5)])⟩
        (some ["a"])
      = RequestOutcome.resolved
          ⟨vObj [("items", vArr [vObj [("a", vNum 1)]]), ("total", vNum 5)], vNull, none⟩ := by
  have h := (request_return_columns_filtering
      ⟨"basic", 200, none, "u",
        Except.ok (vObj [("items", vArr [vObj [("a", vNum 1), ("b", vNum 2)]]), ("total", vNum 5)])⟩
      ["a"] _ rfl (by decide) rfl (by decide) (by decide)).1 _ rfl
  exact h.1.trans (by rfl)

/- Sanity checks. -/
example : objToQs (clearObj [("ids", vArr [vNum 1, vNum 2, vNum 3])]) = "ids=1&ids=2&ids=3" := by
  decide

example : urlencode "a b&c" = "a+b%26c" := by decide

/-- Unfolding lemma: `qsPairs` on an array-valued entry. -/
theorem qsPairs_cons_arr (k : String) (items : List Val) (rest : List (String × Val)) :
    qsPairs ((k, vArr items) :: rest)
      = (items.filterMap (fun item =>
          if item.isNullish then none else some (k, valToString item)))
          ++ qsPairs rest := rfl

/-- When no element is null/undefined, the element translation keeps
every element. -/
theorem qsPairs_filterMap_of_nonNullish (k : String) (items : List Val)
    (h : ∀ i ∈ items, i.isNullish = false) :
    items.filterMap (fun item =>
        if item.isNullish then none else some (k, valToString item))
      = items.map (fun i => (k, valToString i)) := by
  induction items with
  | nil => rfl
  | cons a t ih =>
    rw [List.filterMap_cons, List.map_cons, h a (by simp),
      ih (fun i hi => h i (by simp [hi]))]
    simp

/-- C4 counterexample — `searchParams` entry `ids: [null, 1]`: the value
is an array (truthy, so not dropped by `clearObj`), it has two elements,
but the key is repeated only once — the `null` element is skipped — so
"a key whose value is an array is repeated once per element" fails as
stated. -/
theorem objToQs_per_element_counterexample :
    clearObj [("ids", vArr [vNull, vNum 1])] = [("ids", vArr [vNull, vNum 1])]
    ∧ ([vNull, vNum 1] : List Val).length = 2
    ∧ (qsPairs [("ids", vArr [vNull, vNum 1])]).length = 1
    ∧ objToQs (clearObj [("ids", vArr [vNull, vNum 1])]) = "ids=1" :=
  ⟨rfl, rfl, rfl, by decide⟩

/-- C4 (amended) — Entries of `searchParams` with a falsy value are
dropped by `clearObj` before encoding (the kept entries are exactly the
truthy ones, in insertion order), and an array-valued key is repeated
once per non-null, non-undefined element in insertion order (one
`key=item.toString()` pair per element); in particular
`objToQs (ids: [1,2,3])` is `"ids=1&ids=2&ids=3"`. -/
theorem searchParams_serialization
    (params : List (String × Val)) (k : String) (items : List Val)
    (hnn : ∀ i ∈ items, i.isNullish = false) :
    (∀ kv ∈ params, kv.2.truthy = false → kv ∉ clearObj params)
    ∧ (clearObj params).Sublist params
    ∧ (∀ kv ∈ clearObj params, kv.2.truthy = true)
    ∧ qsPairs ((k, vArr items) :: params)
        = items.map (fun i => (k, valToString i)) ++ qsPairs params
    ∧ objToQs [("ids", vArr [vNum 1, vNum 2, vNum 3])] = "ids=1&ids=2&ids=3" := by
  refine ⟨?_, ?_, ?_, ?_, by decide⟩
  · intro kv _ hfalsy hmem
    have := (List.mem_filter.mp hmem).2
    rw [hfalsy] at this
    cases this
  · exact List.filter_sublist params
  · intro kv hmem
    have := (List.mem_filter.mp hmem).2
    simpa using this
  · rw [qsPairs_cons_arr, qsPairs_filterMap_of_nonNullish k items hnn]

/-- C4 witness: two numeric elements followed by another entry. -/
theorem searchParams_serialization_witness :
    qsPairs [("ids", vArr [vNum 1, vNum 2]), ("q", vStr "x")]
      = ([vNum 1, vNum 2] : List Val).map (fun i => ("ids", valToString i))
          ++ qsPairs [("q", vStr "x")] :=
  (searchParams_serialization [("q", vStr "x")] "ids" [vNum 1, vNum 2] (by decide)).2.2.2.1

/-- Deleting a header really removes it (`Headers.delete`). -/
theorem hhas_hdelete (h : HeadersM) (k : String) : hhas (hdelete h k) k = false := by
  rw [hhas, Bool.eq_false_iff]
  intro hc
  rcases List.any_eq_true.mp hc with ⟨kv, hmem, hpred⟩
  have h2 := (List.mem_filter.mp hmem).2
  simp only [decide_eq_true_eq] at hpred
  simp [hpred] at h2

/-- C3 — Body and `Content-Type` handling of `prepareRequest`: a plain
structured-record body is serialized with `JSON.stringify` and
`Content-Type: application/json` is set unless one is already present
(in which case the headers are left unchanged); a `FormData` body is
forwarded as-is with no JSON header forced — the `Content-Type` entry is
removed so the platform sets it; with no body the `Content-Type` entry
is removed. -/
theorem prepareRequest_content_type
    (baseUrl endpoint : String) (options : FetchOptionsM) (headers : HeadersM) :
    (∀ kvs, options.body = .bObj kvs →
        (prepareRequest baseUrl endpoint options headers).body
            = .sStr (jsonStringify (vObj kvs))
        ∧ (hhas headers "Content-Type" = false →
            (prepareRequest baseUrl endpoint options headers).headers
              = hset headers "Content-Type" "application/json")
        ∧ (hhas headers "Content-Type" = true →
            (prepareRequest baseUrl endpoint options headers).headers = headers))
    ∧ (options.body = .bForm →
        (prepareRequest baseUrl endpoint options headers).body = .sForm
        ∧ hhas (prepareRequest baseUrl endpoint options headers).headers "Content-Type" = false)
    ∧ (options.body = .bNone →
        (prepareRequest baseUrl endpoint options headers).body = .sNone
        ∧ hhas (prepareRequest baseUrl endpoint options headers).headers "Content-Type" = false) := by
  refine ⟨?_, ?_, ?_⟩
  · intro kvs hb
    refine ⟨by simp [prepareRequest, hb], ?_, ?_⟩
    · intro hct
      simp [prepareRequest, hb, hct]
    · intro hct
      simp [prepareRequest, hb, hct]
  · intro hb
    exact ⟨by simp [prepareRequest, hb], by simp [prepareRequest, hb, hhas_hdelete]⟩
  · intro hb
    exact ⟨by simp [prepareRequest, hb], by simp [prepareRequest, hb, hhas_hdelete]⟩

/-- C3 witness: a structured body with no pre-existing `Content-Type`. -/
theorem prepareRequest_content_type_witness :
    (prepareRequest "https://api" "/x" ⟨FetchBody.bObj [("a", vNum 1)], none, none⟩ []).body
        = SentBody.sStr (jsonStringify (vObj [("a", vNum 1)]))
    ∧ (prepareRequest "https://api" "/x" ⟨FetchBody.bObj [("a", vNum 1)], none, none⟩ []).headers
        = hset [] "Content-Type" "application/json" := by
  have h := (prepareRequest_content_type "https://api" "/x"
      ⟨FetchBody.bObj [("a", vNum 1)], none, none⟩ []).1 [("a", vNum 1)] rfl
  exact ⟨h.1, h.2.1 (by decide)⟩

/- Sanity checks. -/
example :
    (productQueryBuilder [] ⟨none, none, some "date_desc", MustOpt.mNone, none, none⟩
        ⟨some sortNames, some source⟩).sort
      = vArr [vObj [("created_at", vStr "desc")]] := rfl

example :
    (productQueryBuilder [] ⟨none, none, some "date_desc", MustOpt.mNone, some ["5"], none⟩
        ⟨some sortNames, some source⟩).sort = vObj [] := rfl

/-- Unfolding lemma: the `sort` output of the builder. -/
theorem productQueryBuilder_sort (baseMust : List Val) (options : QueryOptions)
    (config : ESconfigType) :
    (productQueryBuilder baseMust options config).sort
      = match options.ids with
        | some _ => vObj []
        | none =>
          match options.sort with
          | some s =>
              if !(s = "") then
                jsOr (getField (vObj (config.sortNames.getD [])) s) defaultSort
              else defaultSort
          | none => defaultSort := rfl

/-- Unfolding lemma: the `size` output of the builder. -/
theorem productQueryBuilder_size (baseMust : List Val) (options : QueryOptions)
    (config : ESconfigType) :
    (productQueryBuilder baseMust options config).size
      = match options.size with
        | some n => if !(n = 0) then n else 12
        | none => 12 := rfl

/-- Unfolding lemma: `getField` on a plain object. -/
theorem getField_obj (kvs : List (String × Val)) (k : String) :
    getField (vObj kvs) k
      = match kvs.find? (fun kv => kv.1 = k) with
        | some kv => kv.2
        | none => vUndef := rfl

/-- C6 counterexample — a merged table whose caller override maps
`date_desc` to `null`: the name is mapped in the merged sort-name table
(its entry is `null`), yet the builder outputs the default
relevance-descending sort, not the table's entry. -/
theorem productQueryBuilder_sort_counterexample :
    (productQueryBuilder []
        ⟨none, none, some "date_desc", MustOpt.mNone, none, none⟩
        (mergedConfig (some ⟨some [("date_desc", vNull)], none⟩))).sort = defaultSort
    ∧ getField (vObj ((mergedConfig (some ⟨some [("date_desc", vNull)], none⟩)).sortNames.getD []))
        "date_desc" = vNull
    ∧ vNull ≠ defaultSort := by
  refine ⟨rfl, rfl, ?_⟩
  intro h
  simp [defaultSort] at h

/-- C6 (amended) — The builder's `sort` output: the empty no-op object
whenever an id list was supplied (regardless of the requested sort key);
otherwise, the sort-name table's entry when the requested name is mapped
to a truthy entry, and the default relevance-descending sort when the
name is mapped to a falsy entry, is unmapped, or no (non-empty) sort key
was specified. -/
theorem productQueryBuilder_sort_resolution
    (baseMust : List Val) (options : QueryOptions) (config : ESconfigType) :
    (∀ l, options.ids = some l →
        (productQueryBuilder baseMust options config).sort = vObj [])
    ∧ (options.ids = none →
        ((options.sort = none ∨ options.sort = some "") →
            (productQueryBuilder baseMust options config).sort = defaultSort)
        ∧ (∀ s, options.sort = some s → s ≠ "" →
            (∀ kv, (config.sortNames.getD []).find? (fun e => e.1 = s) = some kv →
                kv.2.truthy = true →
                (productQueryBuilder baseMust options config).sort = kv.2)
            ∧ (∀ kv, (config.sortNames.getD []).find? (fun e => e.1 = s) = some kv →
                kv.2.truthy = false →
                (productQueryBuilder baseMust options config).sort = defaultSort)
            ∧ ((config.sortNames.getD []).find? (fun e => e.1 = s) = none →
                (productQueryBuilder baseMust options config).sort = defaultSort))) := by
  refine ⟨?_, ?_⟩
  · intro l hl
    rw [productQueryBuilder_sort, hl]
  · intro hids
    refine ⟨?_, ?_⟩
    · rintro (hs | hs) <;> rw [productQueryBuilder_sort, hids, hs] <;> simp
    · intro s hs hne
      have hne' : (!(s = "")) = true := by simpa using hne
      refine ⟨?_, ?_, ?_⟩
      · intro kv hfind htr
        rw [productQueryBuilder_sort, hids, hs]
        simp only [hne', if_true]
        rw [getField_obj, hfind, jsOr, if_pos htr]
      · intro kv hfind htr
        rw [productQueryBuilder_sort, hids, hs]
        simp only [hne', if_true]
        rw [getField_obj, hfind, jsOr, if_neg (by simp [htr])]
      · intro hfind
        rw [productQueryBuilder_sort, hids, hs]
        simp only [hne', if_true]
        rw [getField_obj, hfind]
        rfl

/-- C6 witness: a mapped sort name resolves to its table entry; with ids
present the sort is forced empty. -/
theorem productQueryBuilder_sort_resolution_witness :
    (productQueryBuilder [] ⟨none, none, some "price_asc", MustOpt.mNone, none, none⟩
        ⟨some sortNames, some source⟩).sort
      = vArr [vObj [("selling_price", vStr "asc")]] := by
  have h := ((productQueryBuilder_sort_resolution []
      ⟨none, none, some "price_asc", MustOpt.mNone, none, none⟩
      ⟨some sortNames, some source⟩).2 rfl).2 "price_asc" rfl (by decide)
  exact h.1 ("price_asc", vArr [vObj [("selling_price", vStr "asc")]]) rfl rfl

/-- C10 — A supplied page size of `0` (JS-falsy) yields a result size of
12, the same as when no size is supplied; and no options can make the
builder output size `0`. -/
theorem productQueryBuilder_size_zero
    (baseMust : List Val) (options : QueryOptions) (config : ESconfigType)
    (h : options.size = some 0 ∨ options.size = none) :
    (productQueryBuilder baseMust options config).size = 12
    ∧ ∀ o2 : QueryOptions, (productQueryBuilder baseMust o2 config).size ≠ 0 := by
  constructor
  · rcases h with h | h <;> rw [productQueryBuilder_size, h] <;> rfl
  · intro o2
    rw [productQueryBuilder_size]
    cases ho : o2.size with
    | none => simp
    | some n =>
      by_cases hn : n = 0
      · simp [hn]
      · simp [hn]

/-- C10 witness: size 0 and absent size both produce 12. -/
theorem productQueryBuilder_size_zero_witness :
    (productQueryBuilder [] ⟨some 0, none, none, MustOpt.mNone, none, none⟩
        ⟨some sortNames, some source⟩).size = 12 :=
  (productQueryBuilder_size_zero [] ⟨some 0, none, none, MustOpt.mNone, none, none⟩
    ⟨some sortNames, some source⟩ (Or.inl rfl)).1

/-- Lookup (`find?`) over the spread merge, for a key present among the
defaults: the entry survives under its key, with the override's value
when the overrides carry the key and the default's value otherwise. -/
theorem jsSpread_find?_of_default (defaults overrides : List (String × Val)) (name : String)
    (dv : String × Val) (hd : defaults.find? (fun e => e.1 = name) = some dv) :
    (jsSpread defaults overrides).find? (fun e => e.1 = name)
      = some (name, match overrides.find? (fun e => e.1 = name) with
          | some cv => cv.2
          | none => dv.2) := by
  have hkey : dv.1 = name := by simpa using List.find?_some hd
  rw [jsSpread, List.find?_append, List.find?_map]
  have hpg : ((fun e : String × Val => decide (e.1 = name)) ∘
      (fun kv : String × Val =>
        (kv.1, match overrides.find? (fun e => e.1 = kv.1) with
          | some e => e.2
          | none => kv.2)))
      = (fun kv : String × Val => decide (kv.1 = name)) := by
    funext kv
    rfl
  rw [hpg, hd, Option.map_some', Option.or_some, hkey]

/-- Merged `ESService` config: the sort-name table. -/
theorem mergedConfig_sortNames (config : ESconfigType) :
    (mergedConfig (some config)).sortNames
      = some (jsSpread sortNames (config.sortNames.getD [])) := rfl

/-- Merged `ESService` config: the source field list. -/
theorem mergedConfig_source (config : ESconfigType) :
    (mergedConfig (some config)).source
      = some (source ++ config.source.getD []) := rfl

/-- C7 — The configuration merged by the `ESService` constructor is an
append-only union: every built-in sort name stays mapped in the merged
table — to the caller's value when the caller's override carries the
name (precedence), else to the built-in value — and the merged source
list is the built-in fields with the caller's fields appended, so every
built-in entry survives any override. -/
theorem ESService_config_merge (config : ESconfigType) :
    (∀ name dv, sortNames.find? (fun e => e.1 = name) = some dv →
        (∀ cv, (config.sortNames.getD []).find? (fun e => e.1 = name) = some cv →
            ((mergedConfig (some config)).sortNames.getD []).find? (fun e => e.1 = name)
              = some (name, cv.2))
        ∧ ((config.sortNames.getD []).find? (fun e => e.1 = name) = none →
            ((mergedConfig (some config)).sortNames.getD []).find? (fun e => e.1 = name)
              = some (name, dv.2)))
    ∧ (∀ name, (sortNames.find? (fun e => e.1 = name)).isSome →
        (((mergedConfig (some config)).sortNames.getD []).find?
            (fun e => e.1 = name)).isSome)
    ∧ (∀ f ∈ source, f ∈ (mergedConfig (some config)).source.getD [])
    ∧ (mergedConfig (some config)).source = some (source ++ config.source.getD []) := by
  refine ⟨?_, ?_, ?_, mergedConfig_source config⟩
  · intro name dv hd
    constructor
    · intro cv hc
      rw [mergedConfig_sortNames]
      show (jsSpread sortNames (config.sortNames.getD [])).find? (fun e => e.1 = name)
        = some (name, cv.2)
      rw [jsSpread_find?_of_default sortNames (config.sortNames.getD []) name dv hd, hc]
    · intro hc
      rw [mergedConfig_sortNames]
      show (jsSpread sortNames (config.sortNames.getD [])).find? (fun e => e.1 = name)
        = some (name, dv.2)
      rw [jsSpread_find?_of_default sortNames (config.sortNames.getD []) name dv hd, hc]
  · intro name hsome
    rcases Option.isSome_iff_exists.mp hsome with ⟨dv, hd⟩
    rw [mergedConfig_sortNames]
    show ((jsSpread sortNames (config.sortNames.getD [])).find? (fun e => e.1 = name)).isSome
      = true
    rw [jsSpread_find?_of_default sortNames (config.sortNames.getD []) name dv hd]
    rfl
  · intro f hf
    rw [mergedConfig_source]
    exact List.mem_append_left _ hf

/-- C7 witness: an override redefining `date_desc` and adding a source
field — `date_desc` maps to the caller's value, `price_asc` keeps its
default, and the built-in `title` field survives. -/
theorem ESService_config_merge_witness :
    ((mergedConfig (some ⟨some [("date_desc", vStr "override")], none⟩)).sortNames.getD
        []).find? (fun e => e.1 = "date_desc")
      = some ("date_desc", vStr "override")
    ∧ ((mergedConfig (some ⟨some [("date_desc", vStr "override")], none⟩)).sortNames.getD
        []).find? (fun e => e.1 = "price_asc")
      = some ("price_asc", vArr [vObj [("selling_price", vStr "asc")]])
    ∧ "title" ∈ (mergedConfig (some ⟨some [("date_desc", vStr "override")], none⟩)).source.getD
        [] := by
  refine ⟨?_, ?_, ?_⟩
  · exact ((ESService_config_merge ⟨some [("date_desc", vStr "override")], none⟩).1
      "date_desc" ("date_desc", vArr [vObj [("created_at", vStr "desc")]]) rfl).1
      ("date_desc", vStr "override") rfl
  · exact ((ESService_config_merge ⟨some [("date_desc", vStr "override")], none⟩).1
      "price_asc" ("price_asc", vArr [vObj [("selling_price", vStr "asc")]]) rfl).2 rfl
  · exact (ESService_config_merge ⟨some [("date_desc", vStr "override")], none⟩).2.2.1
      "title" (by decide)

/-- The registry after a construction sequence holds, for each name, the
first construction with that name. -/
theorem runConstructions_find? (cs : List (String × Nat)) (reg : Registry) (name : String) :
    (runConstructions reg cs).find? (fun e => e.1 = name)
      = match reg.find? (fun e => e.1 = name) with
        | some e => some e
        | none => cs.find? (fun c => c.1 = name) := by
  induction cs generalizing reg with
  | nil =>
    cases hr : reg.find? (fun e => e.1 = name) <;> simp [runConstructions, hr]
  | cons c cs ih =>
    obtain ⟨c1, c2⟩ := c
    rw [runConstructions, ih]
    cases hr : reg.find? (fun e => e.1 = name) with
    | some e =>
      have hstep : (registryConstruct reg c1 c2).find? (fun e2 => e2.1 = name) = some e := by
        rw [registryConstruct]
        by_cases hh : (reg.find? (fun e2 => e2.1 = c1)).isSome
        · rw [if_pos hh, hr]
        · rw [if_neg hh, List.find?_append, hr, Option.or_some]
      rw [hstep]
    | none =>
      by_cases hceq : c1 = name
      · subst hceq
        have hrc : reg.find? (fun e2 => e2.1 = c1) = none := hr
        have hstep : (registryConstruct reg c1 c2).find? (fun e2 => e2.1 = c1)
            = some (c1, c2) := by
          rw [registryConstruct, if_neg (by simp [hrc]), List.find?_append, hr]
          simp [List.find?_cons]
        rw [hstep]
        simp [List.find?_cons]
      · have hstep : (registryConstruct reg c1 c2).find? (fun e2 => e2.1 = name) = none := by
          rw [registryConstruct]
          by_cases hh : (reg.find? (fun e2 => e2.1 = c1)).isSome
          · rw [if_pos hh, hr]
          · rw [if_neg hh, List.find?_append, hr]
            simp [List.find?_cons, hceq]
        rw [hstep]
        simp [List.find?_cons, hceq]

/-- C8 — A construction for an already-registered index name leaves the
registry unchanged (the first-constructed instance is retained);
`getInstance` on the registry built by a construction sequence throws
exactly when the sequence never constructed the name, and otherwise
returns the first-constructed instance for that name. -/
theorem ESService_registry
    (cs : List (String × Nat)) (name : String) (reg : Registry) (inst : Nat)
    (hdup : (reg.find? (fun e => e.1 = name)).isSome) :
    registryConstruct reg name inst = reg
    ∧ (cs.find? (fun c => c.1 = name) = none →
        getInstance (runConstructions [] cs) name
          = Except.error ("ES instance for index \"" ++ name ++ "\" not initialized"))
    ∧ (∀ c, cs.find? (fun c2 => c2.1 = name) = some c →
        getInstance (runConstructions [] cs) name = Except.ok c.2) := by
  refine ⟨?_, ?_, ?_⟩
  · rw [registryConstruct, if_pos hdup]
  · intro hnone
    rw [getInstance, runConstructions_find? cs [] name]
    simp only [List.find?_nil]
    rw [hnone]
  · intro c hsome
    rw [getInstance, runConstructions_find? cs [] name]
    simp only [List.find?_nil]
    rw [hsome]

/-- C8 witness: two constructions under the same index name — the first
instance is retained — and a lookup of a never-constructed name
throws. -/
theorem ESService_registry_witness :
    getInstance (runConstructions [] [("products", 1), ("products", 2)]) "products"
      = Except.ok 1
    ∧ getInstance (runConstructions [] [("products", 1), ("products", 2)]) "events"
      = Except.error ("ES instance for index \"events\" not initialized") := by
  constructor
  · exact (ESService_registry [("products", 1), ("products", 2)] "products"
      [("products", 0)] 7 (by decide)).2.2 ("products", 1) (by decide)
  · exact (ESService_registry [("products", 1), ("products", 2)] "events"
      [("events", 0)] 7 (by decide)).2.1 (by decide)
